import Mathlib

/-!
Verification of the mender-stress-test-client repository.

The Go sources are shallowly embedded: Go strings are modelled as `List Char`,
machine integers as `Nat` (with explicit `% 2 ^ w` where the code masks or
casts), HTTP calls and the PRNG as explicit oracles (lists of pre-determined
answers consumed in order), and the event-loop code as executable trace
generators.  Each claim is settled by a theorem about these definitions.
-/

namespace MSTC

/-! ## Identity derivation (client/client.go, getMACAddressFromPrefixAndIndex)

Go's `strconv.ParseUint(s, 16, 8)` accepts a non-empty string of hex digits
whose value fits in 8 bits.  `byte(index>>k) & 255` on a non-negative index is
`index / 2 ^ k % 256`.  `fmt.Sprintf("%02x:...")` formats each byte as two
lower-case hex digits separated by colons. -/

/-- Value of one hexadecimal digit, accepting both cases (as Go's strconv). -/
def hexVal (c : Char) : Option Nat :=
  if '0' ≤ c ∧ c ≤ '9' then some (c.toNat - '0'.toNat)
  else if 'a' ≤ c ∧ c ≤ 'f' then some (c.toNat - 'a'.toNat + 10)
  else if 'A' ≤ c ∧ c ≤ 'F' then some (c.toNat - 'A'.toNat + 10)
  else none

/-- Embedding of `strconv.ParseUint(s, 16, 8)`: a non-empty all-hex-digit
string whose value is below `2 ^ 8`. -/
def parseHexByte (s : List Char) : Option Nat :=
  match s with
  | [] => none
  | _ :: _ =>
    match s.mapM hexVal with
    | none => none
    | some ds =>
      let v := ds.foldl (fun a d => 16 * a + d) 0
      if v < 256 then some v else none

/-- Lower-case hex digit for a value below 16 (as `%02x` renders nibbles). -/
def hexChar (n : Nat) : Char :=
  if n < 10 then Char.ofNat ('0'.toNat + n) else Char.ofNat ('a'.toNat + (n - 10))

/-- Two-digit lower-case hex rendering of one byte (`%02x`). -/
def byteToHex (b : Nat) : List Char :=
  [hexChar (b / 16), hexChar (b % 16)]

/-- The six bytes laid out by `getMACAddressFromPrefixAndIndex`: the parsed
one-byte address ahead, then `index>>32 & 255`, `index>>24 & 255`,
`index>>16 & 255`, `index>>8 & 255`, `index & 255` (big-endian low 40 bits). -/
def macBytes (p i : Nat) : List Nat :=
  [p, i / 2 ^ 32 % 256, i / 2 ^ 24 % 256, i / 2 ^ 16 % 256, i / 2 ^ 8 % 256, i % 256]

/-- Embedding of `fmt.Sprintf("%02x:%02x:%02x:%02x:%02x:%02x", ...)` over six
bytes. -/
def formatMAC (bs : List Nat) : List Char :=
  match bs with
  | [] => []
  | [b] => byteToHex b
  | b :: rest => byteToHex b ++ ':' :: formatMAC rest

/-- Embedding of `getMACAddressFromPrefixAndIndex` (client/client.go): parse
the one-byte hex first-byte string, then render the six derived bytes. -/
def getMACAddressFromPrefixAndIndex (pre : List Char) (index : Nat) : Option (List Char) :=
  match parseHexByte pre with
  | none => none
  | some p => some (formatMAC (macBytes p index))

theorem hexChar_inj : ∀ m, m < 16 → ∀ n, n < 16 → hexChar m = hexChar n → m = n := by
  decide

theorem byteToHex_injOn {b c : Nat} (hb : b < 256) (hc : c < 256)
    (h : byteToHex b = byteToHex c) : b = c := by
  simp only [byteToHex, List.cons.injEq, and_true] at h
  obtain ⟨h1, h2⟩ := h
  have e1 := hexChar_inj _ (by omega : b / 16 < 16) _ (by omega : c / 16 < 16) h1
  have e2 := hexChar_inj _ (Nat.mod_lt _ (by norm_num)) _ (Nat.mod_lt _ (by norm_num)) h2
  omega

theorem macBlock_inj {b c : Nat} {t u : List Char}
    (h : byteToHex b ++ ':' :: t = byteToHex c ++ ':' :: u) :
    byteToHex b = byteToHex c ∧ t = u := by
  have := List.append_inj h (by simp [byteToHex])
  exact ⟨this.1, by simpa using this.2⟩

/-- C3: for a parsable one-byte hex address start, the derived address encodes
that byte first and the low 40 bits of the index big-endian behind it, and the
derivation is injective on indices below `2 ^ 40`. -/
theorem mac_derivation_unique (pre : List Char) (p i j : Nat)
    (hp : parseHexByte pre = some p) (hi : i < 2 ^ 40) (hj : j < 2 ^ 40) (hij : i ≠ j) :
    getMACAddressFromPrefixAndIndex pre i = some (formatMAC (macBytes p i)) ∧
    getMACAddressFromPrefixAndIndex pre i ≠ getMACAddressFromPrefixAndIndex pre j := by
  refine ⟨by simp [getMACAddressFromPrefixAndIndex, hp], ?_⟩
  simp only [getMACAddressFromPrefixAndIndex, hp, ne_eq, Option.some.injEq]
  intro heq
  apply hij
  have h : byteToHex p ++ ':' :: (byteToHex (i / 2 ^ 32 % 256) ++ ':' ::
      (byteToHex (i / 2 ^ 24 % 256) ++ ':' :: (byteToHex (i / 2 ^ 16 % 256) ++ ':' ::
      (byteToHex (i / 2 ^ 8 % 256) ++ ':' :: byteToHex (i % 256))))) =
      byteToHex p ++ ':' :: (byteToHex (j / 2 ^ 32 % 256) ++ ':' ::
      (byteToHex (j / 2 ^ 24 % 256) ++ ':' :: (byteToHex (j / 2 ^ 16 % 256) ++ ':' ::
      (byteToHex (j / 2 ^ 8 % 256) ++ ':' :: byteToHex (j % 256))))) := heq
  obtain ⟨-, h⟩ := macBlock_inj h
  obtain ⟨e4, h⟩ := macBlock_inj h
  obtain ⟨e3, h⟩ := macBlock_inj h
  obtain ⟨e2, h⟩ := macBlock_inj h
  obtain ⟨e1, e0⟩ := macBlock_inj h
  have p256 : (0 : Nat) < 256 := by norm_num
  have d4 := byteToHex_injOn (Nat.mod_lt _ p256) (Nat.mod_lt _ p256) e4
  have d3 := byteToHex_injOn (Nat.mod_lt _ p256) (Nat.mod_lt _ p256) e3
  have d2 := byteToHex_injOn (Nat.mod_lt _ p256) (Nat.mod_lt _ p256) e2
  have d1 := byteToHex_injOn (Nat.mod_lt _ p256) (Nat.mod_lt _ p256) e1
  have d0 := byteToHex_injOn (Nat.mod_lt _ p256) (Nat.mod_lt _ p256) e0
  omega

/-- Witness for C3 at the default "ff" first byte and indices 0 and 1. -/
theorem mac_derivation_unique_witness :
    getMACAddressFromPrefixAndIndex ['f', 'f'] 0 ≠ getMACAddressFromPrefixAndIndex ['f', 'f'] 1 :=
  (mac_derivation_unique ['f', 'f'] 255 0 1 (by decide) (by norm_num) (by norm_num)
    (by decide)).2

/-! ## Inventory attribute assembly (client/client.go SendInventory,
main.go parseInventoryItems)

`strings.Split(s, sep)` for a one-character separator never returns an empty
slice (splitting the empty string yields one empty part); `strings.SplitN(s,
sep, 2)` yields the part before the first separator and the unsplit rest. -/

/-- Embedding of `strings.Split(s, sep)` with a one-character separator. -/
def splitOnChar (sep : Char) : List Char → List (List Char)
  | [] => [[]]
  | c :: cs =>
    match splitOnChar sep cs with
    | [] => [[]]
    | h :: t => if c = sep then [] :: h :: t else (c :: h) :: t

/-- Embedding of `strings.SplitN(s, sep, 2)` with a one-character separator. -/
def splitN2 (sep : Char) : List Char → List (List Char)
  | [] => [[]]
  | c :: cs =>
    if c = sep then [[], cs]
    else
      match splitN2 sep cs with
      | [] => [[]]
      | h :: t => (c :: h) :: t

def attributeRootfsImageVersion : List Char := "rootfs-image.version".data

def attributeDeviceType : List Char := "device_type".data

/-- One name/value inventory attribute (model.InventoryAttribute with a string
value, the only value shape client/client.go produces). -/
structure InventoryAttribute where
  name : List Char
  value : List Char
deriving Repr, DecidableEq

/-- One static configured attribute, as assembled by the first loop of
`SendInventory`: specs without ":" are skipped, the value list is the
"|"-split of the part after the first ":", and the device picks entry
`index % len(values)`. -/
def buildStaticAttr (index : Nat) (attr : List Char) : Option InventoryAttribute :=
  match splitN2 ':' attr with
  | [n, v] =>
    let values := splitOnChar '|' v
    some ⟨n, values.getD (index % values.length) []⟩
  | _ => none

/-- The randomized configured attributes, as assembled by the second loop of
`SendInventory`.  The PRNG draw `mathrand.Intn(len(values))` is modelled by
consuming one oracle entry `c` and using `c % len(values)`; an in-range draw
is exactly such a value. -/
def buildRandomAttrs (choices : List Nat) : List (List Char) → List InventoryAttribute
  | [] => []
  | a :: rest =>
    match splitN2 ':' a with
    | [n, v] =>
      let values := splitOnChar '|' v
      ⟨n, values.getD (choices.headD 0 % values.length) []⟩ ::
        buildRandomAttrs choices.tail rest
    | _ => buildRandomAttrs choices rest

/-- The whole attribute list built by `SendInventory` before marshalling:
the fixed rootfs-image.version/device_type pair, then the static configured
attributes, then the randomized ones. -/
def buildAttributes (artifactName deviceType : List Char)
    (staticAttrs randomAttrs : List (List Char)) (index : Nat) (choices : List Nat) :
    List InventoryAttribute :=
  ⟨attributeRootfsImageVersion, artifactName⟩ :: ⟨attributeDeviceType, deviceType⟩ ::
    (staticAttrs.filterMap (buildStaticAttr index) ++ buildRandomAttrs choices randomAttrs)

/-- Attribute value in the legacy main.go inventory path: the parsed pairs are
strings and the appended liveness attribute is an integer Unix time. -/
inductive MainVal where
  | str (s : List Char)
  | int (n : Int)
deriving Repr, DecidableEq

/-- One attribute of the legacy main.go inventory path. -/
structure MainInventoryAttribute where
  name : List Char
  value : MainVal
deriving Repr, DecidableEq

/-- One comma-separated item of the legacy `-inventory` flag: `pair[0]` and
`pair[1]` of the ":"-split; an item without ":" makes `pair[1]` panic (index
out of range), modelled as `none`. -/
def parseItem (e : List Char) : Option MainInventoryAttribute :=
  match splitOnChar ':' e with
  | k :: v :: _ => some ⟨k, .str v⟩
  | _ => none

/-- Embedding of main.go `parseInventoryItems`: parse every comma-separated
item, then append the dynamic `time` attribute carrying the current Unix
time. -/
def parseInventoryItems (items : List Char) (now : Int) :
    Option (List MainInventoryAttribute) :=
  match (splitOnChar ',' items).mapM parseItem with
  | none => none
  | some l => some (l ++ [⟨"time".data, .int now⟩])

theorem splitOnChar_ne_nil (sep : Char) (s : List Char) : splitOnChar sep s ≠ [] := by
  cases s with
  | nil => simp [splitOnChar]
  | cons c cs =>
    simp only [splitOnChar]
    cases h : splitOnChar sep cs with
    | nil => simp
    | cons h t =>
      by_cases hc : c = sep <;> simp [hc]

theorem splitN2_no_sep (sep : Char) (s : List Char) (h : sep ∉ s) :
    splitN2 sep s = [s] := by
  induction s with
  | nil => rfl
  | cons c cs ih =>
    simp only [List.mem_cons, not_or] at h
    have hcs : ¬c = sep := fun hc => h.1 hc.symm
    simp only [splitN2, if_neg hcs, ih h.2]

theorem splitN2_with_sep (sep : Char) (n v : List Char) (h : sep ∉ n) :
    splitN2 sep (n ++ sep :: v) = [n, v] := by
  induction n with
  | nil => simp [splitN2]
  | cons c cs ih =>
    simp only [List.mem_cons, not_or] at h
    have hcs : ¬c = sep := fun hc => h.1 hc.symm
    simp only [List.cons_append, splitN2, if_neg hcs, List.append_eq, ih h.2]

/-- C10: static inventory attribute assembly is total and deterministic: a
configured spec without ":" is silently skipped; a spec `n ++ ":" ++ v` yields
the value of the "|"-split of `v` at position `index % k`, and this position is
always in bounds because the split has `k ≥ 1` elements, so assembly never
panics. -/
theorem static_attr_assembly (index : Nat) (attr n v : List Char)
    (hattr : ':' ∉ attr) (hn : ':' ∉ n) :
    buildStaticAttr index attr = none ∧
    0 < (splitOnChar '|' v).length ∧
    index % (splitOnChar '|' v).length < (splitOnChar '|' v).length ∧
    buildStaticAttr index (n ++ ':' :: v) =
      some ⟨n, (splitOnChar '|' v).getD (index % (splitOnChar '|' v).length) []⟩ := by
  have hlen : 0 < (splitOnChar '|' v).length :=
    List.length_pos.mpr (splitOnChar_ne_nil '|' v)
  refine ⟨?_, hlen, Nat.mod_lt _ hlen, ?_⟩
  · rw [buildStaticAttr, splitN2_no_sep ':' attr hattr]
  · rw [buildStaticAttr, splitN2_with_sep ':' n v hn]

/-- Witness for C10 at index 0, skipped spec "x" and spec "foo" : "a|b". -/
theorem static_attr_assembly_witness :
    buildStaticAttr 0 ['x'] = none ∧
    0 < (splitOnChar '|' ['a', '|', 'b']).length ∧
    0 % (splitOnChar '|' ['a', '|', 'b']).length < (splitOnChar '|' ['a', '|', 'b']).length ∧
    buildStaticAttr 0 (['f', 'o', 'o'] ++ ':' :: ['a', '|', 'b']) =
      some ⟨['f', 'o', 'o'],
        (splitOnChar '|' ['a', '|', 'b']).getD (0 % (splitOnChar '|' ['a', '|', 'b']).length) []⟩ :=
  static_attr_assembly 0 ['x'] ['f', 'o', 'o'] ['a', '|', 'b'] (by decide) (by decide)

/-- C8 counterexample: at a concrete configuration the Device Session snapshot
consists of exactly the fixed pair, the static attribute and the random
attribute, and carries no liveness timestamp attribute (no attribute named
"time", nothing beyond the configured ones). -/
theorem inventory_no_timestamp_counterexample :
    buildAttributes "test".data "test".data ["foo:a|b".data] ["bar:x|y".data] 0 [0] =
      [⟨"rootfs-image.version".data, "test".data⟩, ⟨"device_type".data, "test".data⟩,
        ⟨"foo".data, "a".data⟩, ⟨"bar".data, "x".data⟩] ∧
    ∀ a ∈ buildAttributes "test".data "test".data ["foo:a|b".data] ["bar:x|y".data] 0 [0],
      a.name ≠ "time".data := by
  decide

/-- C8 (amended): the Device Session snapshot is recomputed from the send-time
inputs; its head is the artifact attribute, its second entry the device-type
attribute, it contains every well-formed configured static attribute, and every
entry is either from the fixed pair or from a configured static or random spec
(in particular no liveness timestamp is added); the liveness "time" attribute
is appended, last, only by the legacy main.go inventory path. -/
theorem inventory_snapshot_contents
    (artifactName deviceType : List Char) (staticAttrs randomAttrs : List (List Char))
    (index : Nat) (choices : List Nat) (n v items : List Char) (now : Int)
    (l : List MainInventoryAttribute)
    (hmem : (n ++ ':' :: v) ∈ staticAttrs) (hn : ':' ∉ n)
    (hl : parseInventoryItems items now = some l) :
    (buildAttributes artifactName deviceType staticAttrs randomAttrs index choices).head? =
      some ⟨attributeRootfsImageVersion, artifactName⟩ ∧
    (buildAttributes artifactName deviceType staticAttrs randomAttrs index choices)[1]? =
      some ⟨attributeDeviceType, deviceType⟩ ∧
    (⟨n, (splitOnChar '|' v).getD (index % (splitOnChar '|' v).length) []⟩ :
        InventoryAttribute) ∈
      buildAttributes artifactName deviceType staticAttrs randomAttrs index choices ∧
    (∀ a ∈ buildAttributes artifactName deviceType staticAttrs randomAttrs index choices,
      a = ⟨attributeRootfsImageVersion, artifactName⟩ ∨
      a = ⟨attributeDeviceType, deviceType⟩ ∨
      (∃ s ∈ staticAttrs, buildStaticAttr index s = some a) ∨
      a ∈ buildRandomAttrs choices randomAttrs) ∧
    l.getLast? = some ⟨"time".data, .int now⟩ := by
  refine ⟨rfl, by simp [buildAttributes], ?_, ?_, ?_⟩
  · have hs := (static_attr_assembly index [] n v (by simp) hn).2.2.2
    simp only [buildAttributes, List.mem_cons, List.mem_append]
    exact Or.inr (Or.inr (Or.inl (List.mem_filterMap.mpr ⟨_, hmem, hs⟩)))
  · intro a ha
    simp only [buildAttributes, List.mem_cons, List.mem_append] at ha
    rcases ha with h | h | h | h
    · exact Or.inl h
    · exact Or.inr (Or.inl h)
    · obtain ⟨s, hsmem, hsa⟩ := List.mem_filterMap.mp h
      exact Or.inr (Or.inr (Or.inl ⟨s, hsmem, hsa⟩))
    · exact Or.inr (Or.inr (Or.inr h))
  · revert hl
    rw [parseInventoryItems]
    cases (splitOnChar ',' items).mapM parseItem with
    | none => intro h; cases h
    | some l0 =>
      intro h
      cases h
      simp

/-- Witness for the amended C8 at a concrete configuration and legacy flag. -/
theorem inventory_snapshot_contents_witness :
    (buildAttributes "test".data "test".data ["foo:a|b".data] ["bar:x|y".data] 0 [0]).head? =
      some ⟨attributeRootfsImageVersion, "test".data⟩ ∧
    (buildAttributes "test".data "test".data ["foo:a|b".data] ["bar:x|y".data] 0 [0])[1]? =
      some ⟨attributeDeviceType, "test".data⟩ ∧
    (⟨"foo".data,
        (splitOnChar '|' "a|b".data).getD (0 % (splitOnChar '|' "a|b".data).length) []⟩ :
        InventoryAttribute) ∈
      buildAttributes "test".data "test".data ["foo:a|b".data] ["bar:x|y".data] 0 [0] ∧
    (∀ a ∈ buildAttributes "test".data "test".data ["foo:a|b".data] ["bar:x|y".data] 0 [0],
      a = ⟨attributeRootfsImageVersion, "test".data⟩ ∨
      a = ⟨attributeDeviceType, "test".data⟩ ∨
      (∃ s ∈ ["foo:a|b".data], buildStaticAttr 0 s = some a) ∨
      a ∈ buildRandomAttrs [0] ["bar:x|y".data]) ∧
    List.getLast? [(⟨"a".data, .str "b".data⟩ : MainInventoryAttribute),
      ⟨"time".data, .int 5⟩] = some ⟨"time".data, .int 5⟩ :=
  inventory_snapshot_contents "test".data "test".data ["foo:a|b".data] ["bar:x|y".data]
    0 [0] "foo".data "a|b".data "a:b".data 5
    [⟨"a".data, .str "b".data⟩, ⟨"time".data, .int 5⟩]
    (by decide) (by decide) (by decide)

/-! ## Deployment execution (client/client.go Client.Deployment,
main.go performFakeUpdate) -/

def statusDownloading : String := "downloading"

def statusInstalling : String := "installing"

def statusRebooting : String := "rebooting"

def statusSuccess : String := "success"

/-- Outcome of one HTTP call as Client.Run distinguishes it: any non-401
response, a 401 response, or a transport error. -/
inductive CallRes where
  | ok
  | unauthorized
  | err
deriving Repr, DecidableEq

/-- Answer the transport gives one deployment status PUT: a network error or a
response with a status code. -/
inductive DepResult where
  | netErr
  | resp (code : Nat)
deriving Repr, DecidableEq

/-- Events of the deployment-execution and update-check traces. -/
inductive DepEv where
  | depReport (status : String) (r : DepResult)
  | depSleep (d : Nat)
  | invSent (attrs : List InventoryAttribute) (r : CallRes)
deriving Repr, DecidableEq

/-- How Client.Deployment returns: all phases reported, aborted by a transport
error, aborted by a 401, or out of scripted transport answers. -/
inductive DepOutcome where
  | success
  | transportErr
  | unauthorized
  | stuck
deriving Repr, DecidableEq

/-- Embedding of the phase loop of Client.Deployment: report each status in
order; a transport error is logged and returned (aborting), a 401 returns
errUnauthorized (aborting), any other response is followed by a
`Config.DeploymentTime` sleep and the next phase. -/
def deploymentRun (T : Nat) : List String → List DepResult → List DepEv × DepOutcome
  | [], _ => ([], .success)
  | _ :: _, [] => ([], .stuck)
  | st :: sts, r :: rs =>
    match r with
    | .netErr => ([.depReport st .netErr], .transportErr)
    | .resp code =>
      if code = 401 then ([.depReport st (.resp code)], .unauthorized)
      else
        (.depReport st (.resp code) :: .depSleep T :: (deploymentRun T sts rs).1,
          (deploymentRun T sts rs).2)

/-- The fixed phase list of Client.Deployment. -/
def deploymentStatuses : List String :=
  [statusDownloading, statusInstalling, statusRebooting, statusSuccess]

/-- Embedding of Client.Deployment over a scripted list of transport
answers. -/
def clientDeployment (T : Nat) (oracle : List DepResult) : List DepEv × DepOutcome :=
  deploymentRun T deploymentStatuses oracle

/-- The statuses carried by the report events of a deployment trace, in trace
order. -/
def reportedStatuses (t : List DepEv) : List String :=
  t.filterMap fun e =>
    match e with
    | .depReport st _ => some st
    | _ => none

theorem deploymentRun_reported_take (T : Nat) :
    ∀ (sts : List String) (rs : List DepResult),
      reportedStatuses (deploymentRun T sts rs).1 =
        sts.take (reportedStatuses (deploymentRun T sts rs).1).length := by
  intro sts
  induction sts with
  | nil => intro rs; rfl
  | cons st sts ih =>
    intro rs
    cases rs with
    | nil => rfl
    | cons r rs =>
      cases r with
      | netErr => rfl
      | resp code =>
        by_cases h : code = 401
        · simp [deploymentRun, h, reportedStatuses]
        · have hrec := ih rs
          simp only [reportedStatuses] at hrec ⊢
          simp only [deploymentRun, if_neg h, List.filterMap_cons]
          rw [List.length_cons, List.take_succ_cons]
          exact congrArg (List.cons st) hrec

/-- C1: a deployment whose four phase reports all draw non-401 responses
produces exactly one report per phase in the fixed order downloading,
installing, rebooting, success, with a sleep of the configured
`DeploymentTime` between consecutive reports; and on any transport script the
reported phases are an initial segment of that fixed order (never reordered or
skipped). -/
theorem deployment_phase_sequence (T : Nat) (c1 c2 c3 c4 : Nat) (rs : List DepResult)
    (h1 : c1 ≠ 401) (h2 : c2 ≠ 401) (h3 : c3 ≠ 401) (h4 : c4 ≠ 401) :
    clientDeployment T [.resp c1, .resp c2, .resp c3, .resp c4] =
      ([.depReport statusDownloading (.resp c1), .depSleep T,
        .depReport statusInstalling (.resp c2), .depSleep T,
        .depReport statusRebooting (.resp c3), .depSleep T,
        .depReport statusSuccess (.resp c4), .depSleep T], .success) ∧
    reportedStatuses (clientDeployment T rs).1 =
      deploymentStatuses.take (reportedStatuses (clientDeployment T rs).1).length := by
  refine ⟨?_, deploymentRun_reported_take T deploymentStatuses rs⟩
  simp [clientDeployment, deploymentStatuses, deploymentRun, h1, h2, h3, h4]

/-- Witness for C1 with four 204 responses and a transport-error script. -/
theorem deployment_phase_sequence_witness :
    clientDeployment 30 [.resp 204, .resp 204, .resp 204, .resp 204] =
      ([.depReport statusDownloading (.resp 204), .depSleep 30,
        .depReport statusInstalling (.resp 204), .depSleep 30,
        .depReport statusRebooting (.resp 204), .depSleep 30,
        .depReport statusSuccess (.resp 204), .depSleep 30], .success) ∧
    reportedStatuses (clientDeployment 30 [DepResult.netErr]).1 =
      deploymentStatuses.take
        (reportedStatuses (clientDeployment 30 [DepResult.netErr]).1).length :=
  deployment_phase_sequence 30 204 204 204 204 [DepResult.netErr]
    (by decide) (by decide) (by decide) (by decide)

/-- Events of the legacy main.go performFakeUpdate reporting cycle. -/
inductive FakeEv where
  | fakeSleep
  | download (ok : Bool)
  | uploadLog (ok : Bool)
  | statusReport (status : String) (ok : Bool)
deriving Repr, DecidableEq

/-- Embedding of the event loop of main.go performFakeUpdate: per cycle entry,
sleep, fetch-and-discard on "downloading" (failures logged), upload the fail
log on "failure" (an upload error returns, skipping the report), then report
the status; a report error is logged with log.Warn and the cycle continues. -/
def performFakeUpdateLoop (downloadOk uploadOk : Bool) :
    List String → List Bool → List FakeEv
  | [], _ => []
  | ev :: rest, reports =>
    [FakeEv.fakeSleep] ++
      (if ev = "downloading" then [FakeEv.download downloadOk] else []) ++
      (if ev = "failure" then
        FakeEv.uploadLog uploadOk ::
          (if uploadOk then
            FakeEv.statusReport ev (reports.headD true) ::
              performFakeUpdateLoop downloadOk uploadOk rest reports.tail
          else [])
      else
        FakeEv.statusReport ev (reports.headD true) ::
          performFakeUpdateLoop downloadOk uploadOk rest reports.tail)

/-- The statuses actually reported by a performFakeUpdate trace. -/
def fakeReportedStatuses (t : List FakeEv) : List String :=
  t.filterMap fun e =>
    match e with
    | .statusReport st _ => some st
    | _ => none

/-- C4 counterexample: in Client.Deployment a transport error on the second
phase report aborts the remaining phases — rebooting and the terminal phase
are never reported, contradicting the claim that only a 401 aborts. -/
theorem deployment_transport_abort_counterexample :
    clientDeployment 30 [.resp 204, .netErr, .resp 204, .resp 204] =
      ([.depReport statusDownloading (.resp 204), .depSleep 30,
        .depReport statusInstalling .netErr], .transportErr) ∧
    statusRebooting ∉
      reportedStatuses (clientDeployment 30 [.resp 204, .netErr, .resp 204, .resp 204]).1 := by
  decide

theorem deploymentRun_abort (T : Nat) :
    ∀ (pre : List DepResult) (sts : List String) (rest : List DepResult) (stop : DepResult),
      (∀ r ∈ pre, ∃ c, r = DepResult.resp c ∧ c ≠ 401) → pre.length < sts.length →
      (stop = DepResult.netErr ∨ stop = DepResult.resp 401) →
      (deploymentRun T sts (pre ++ stop :: rest)).2 =
        (if stop = DepResult.netErr then DepOutcome.transportErr
          else DepOutcome.unauthorized) ∧
      reportedStatuses (deploymentRun T sts (pre ++ stop :: rest)).1 =
        sts.take (pre.length + 1) := by
  intro pre
  induction pre with
  | nil =>
    intro sts rest stop _ hlen hstop
    cases sts with
    | nil => simp at hlen
    | cons st sts =>
      rcases hstop with h | h <;> subst h <;>
        simp [deploymentRun, reportedStatuses]
  | cons r pre ih =>
    intro sts rest stop hpre hlen hstop
    obtain ⟨c, hc, hc401⟩ := hpre r (List.mem_cons_self r pre)
    subst hc
    cases sts with
    | nil => simp at hlen
    | cons st sts =>
      have hrec := ih sts rest stop (fun x hx => hpre x (List.mem_cons_of_mem _ hx))
        (by simpa using Nat.lt_of_succ_lt_succ (by simpa using hlen)) hstop
      simp only [List.cons_append, deploymentRun, if_neg hc401]
      refine ⟨hrec.1, ?_⟩
      simp only [reportedStatuses, List.filterMap_cons] at hrec ⊢
      simp only [List.length_cons, List.take_succ_cons]
      exact congrArg (List.cons st) hrec.2

/-- C4 (amended): in Client.Deployment any failing phase report aborts the
remaining phases — a transport error is logged and surfaced as an error just
as a 401 is surfaced as the authorization rejection, with exactly the phases
up to and including the failing report attempted; only the legacy
main.go performFakeUpdate cycle logs phase-report failures and still executes
and reports the remaining phases. -/
theorem deployment_error_abort_policy (T : Nat) (pre rest : List DepResult)
    (downloadOk : Bool) (reports : List Bool)
    (hpre : ∀ r ∈ pre, ∃ c, r = DepResult.resp c ∧ c ≠ 401) (hlen : pre.length < 4) :
    (clientDeployment T (pre ++ .netErr :: rest)).2 = .transportErr ∧
    reportedStatuses (clientDeployment T (pre ++ .netErr :: rest)).1 =
      deploymentStatuses.take (pre.length + 1) ∧
    (clientDeployment T (pre ++ .resp 401 :: rest)).2 = .unauthorized ∧
    reportedStatuses (clientDeployment T (pre ++ .resp 401 :: rest)).1 =
      deploymentStatuses.take (pre.length + 1) ∧
    fakeReportedStatuses (performFakeUpdateLoop downloadOk true
        ["downloading", "installing", "rebooting", "success"] reports) =
      ["downloading", "installing", "rebooting", "success"] := by
  have hlen' : pre.length < deploymentStatuses.length := by
    simpa [deploymentStatuses] using hlen
  have h1 := deploymentRun_abort T pre deploymentStatuses rest .netErr hpre hlen'
    (Or.inl rfl)
  have h2 := deploymentRun_abort T pre deploymentStatuses rest (.resp 401) hpre hlen'
    (Or.inr rfl)
  refine ⟨by simpa [clientDeployment] using h1.1, h1.2, by simpa [clientDeployment] using h2.1,
    h2.2, ?_⟩
  simp [performFakeUpdateLoop, fakeReportedStatuses]

/-- Witness for the amended C4: transport error and 401 on the second report,
and a fake-update cycle whose reports all fail yet still run to the end. -/
theorem deployment_error_abort_policy_witness :
    (clientDeployment 30 ([.resp 204] ++ .netErr :: [.resp 204, .resp 204])).2 =
      .transportErr ∧
    reportedStatuses (clientDeployment 30 ([.resp 204] ++ .netErr :: [.resp 204, .resp 204])).1 =
      deploymentStatuses.take ([DepResult.resp 204].length + 1) ∧
    (clientDeployment 30 ([.resp 204] ++ .resp 401 :: [.resp 204, .resp 204])).2 =
      .unauthorized ∧
    reportedStatuses
        (clientDeployment 30 ([.resp 204] ++ .resp 401 :: [.resp 204, .resp 204])).1 =
      deploymentStatuses.take ([DepResult.resp 204].length + 1) ∧
    fakeReportedStatuses (performFakeUpdateLoop false true
        ["downloading", "installing", "rebooting", "success"] [false, false, false, false]) =
      ["downloading", "installing", "rebooting", "success"] :=
  deployment_error_abort_policy 30 [.resp 204] [.resp 204, .resp 204] false
    [false, false, false, false]
    (by
      intro r hr
      rw [List.mem_singleton] at hr
      exact ⟨204, by rw [hr], by decide⟩)
    (by decide)

/-! ## Global update-failure bookkeeping (main.go checkForNewUpdate,
performFakeUpdate)

The two process-wide counters `updatesPerformed` and `updatesLeftToFail` are
modelled as a state threaded through a sequential interleaving of the
per-deployment counter updates. -/

/-- The two global counters of main.go. -/
structure MainState where
  updatesPerformed : Nat
  updatesLeftToFail : Nat
deriving Repr, DecidableEq

/-- Embedding of the reset at the head of checkForNewUpdate: once all devices
have performed an update, restore the number of updates left to fail. -/
def checkReset (menderClientCount updateFailCount : Nat) (s : MainState) : MainState :=
  if 0 < s.updatesPerformed ∧ s.updatesPerformed % menderClientCount = 0 then
    { s with updatesLeftToFail := updateFailCount }
  else s

/-- Embedding of the locked section at the head of performFakeUpdate: choose
the terminal status of the reporting cycle and update both counters. -/
def performStatus (updateFailMsg : String) (s : MainState) : MainState × String :=
  if 0 < updateFailMsg.length ∧ 0 < s.updatesLeftToFail then
    ({ updatesPerformed := s.updatesPerformed + 1,
       updatesLeftToFail := s.updatesLeftToFail - 1 }, "failure")
  else
    ({ s with updatesPerformed := s.updatesPerformed + 1 }, "success")

/-- One deployment as the global counters see it: the reset check of
checkForNewUpdate followed by the terminal-status selection of
performFakeUpdate. -/
def deploymentStep (M N : Nat) (failMsg : String) (s : MainState) : MainState × String :=
  performStatus failMsg (checkReset M N s)

/-- A sequence of consecutive deployments and their terminal statuses. -/
def runDeployments (M N : Nat) (failMsg : String) : Nat → MainState → MainState × List String
  | 0, s => (s, [])
  | k + 1, s =>
    ((runDeployments M N failMsg k (deploymentStep M N failMsg s).1).1,
      (deploymentStep M N failMsg s).2 ::
        (runDeployments M N failMsg k (deploymentStep M N failMsg s).1).2)

theorem succ_mod_eq (M p : Nat) (h : p % M + 1 < M) : (p + 1) % M = p % M + 1 := by
  conv_lhs => rw [← Nat.div_add_mod p M]
  rw [Nat.add_assoc, Nat.mul_add_mod]
  exact Nat.mod_eq_of_lt h

theorem runDeployments_no_reset (M N : Nat) (failMsg : String) (hM : 0 < M)
    (hmsg : 0 < failMsg.length) :
    ∀ (j p l : Nat), (0 < j → p % M ≠ 0) → p % M + j ≤ M →
      runDeployments M N failMsg j ⟨p, l⟩ =
        (⟨p + j, l - min j l⟩,
          List.replicate (min j l) "failure" ++ List.replicate (j - min j l) "success") := by
  intro j
  induction j with
  | zero => intro p l _ _; simp [runDeployments]
  | succ j ih =>
    intro p l hne hle
    have hpm : p % M ≠ 0 := hne (Nat.succ_pos j)
    have hstep : checkReset M N ⟨p, l⟩ = ⟨p, l⟩ := by
      rw [checkReset, if_neg]
      intro h
      exact hpm h.2
    have hnext1 : 0 < j → (p + 1) % M ≠ 0 := by
      intro hj
      rw [succ_mod_eq M p (by omega)]
      omega
    have hnext2 : (p + 1) % M + j ≤ M := by
      by_cases hj : 0 < j
      · rw [succ_mod_eq M p (by omega)]
        omega
      · have : (p + 1) % M < M := Nat.mod_lt _ hM
        omega
    cases l with
    | zero =>
      have hperf : performStatus failMsg ⟨p, 0⟩ = (⟨p + 1, 0⟩, "success") := by
        simp [performStatus]
      have hrec := ih (p + 1) 0 hnext1 hnext2
      simp only [runDeployments, deploymentStep, hstep, hperf, hrec]
      simp [List.replicate_succ, Prod.mk.injEq, MainState.mk.injEq]
      all_goals omega
    | succ l =>
      have hperf : performStatus failMsg ⟨p, l + 1⟩ = (⟨p + 1, l⟩, "failure") := by
        simp [performStatus, hmsg]
      have hrec := ih (p + 1) l hnext1 hnext2
      have hmin : min (j + 1) (l + 1) = min j l + 1 := by omega
      simp only [runDeployments, deploymentStep, hstep, hperf, hrec]
      simp [hmin, List.replicate_succ, Nat.succ_sub_succ, Prod.mk.injEq, MainState.mk.injEq]
      all_goals omega

/-- C7: with fail count N, a non-empty fail message and fleet size M ≥ N, a
full pass of M deployments starting at a pass boundary reports "failure" for
the first N deployments and "success" for all later ones; the counter is not
reset at any check strictly inside the pass and is reset to N exactly at a
check whose performed-updates total is a positive multiple of M. -/
theorem fleet_pass_fail_then_success (M N k t ls ls2 l0 : Nat) (failMsg : String)
    (hM : 0 < M) (hNM : N ≤ M) (hmsg : 0 < failMsg.length) (hl0 : k = 0 → l0 = N) :
    runDeployments M N failMsg M ⟨k * M, l0⟩ =
      (⟨(k + 1) * M, 0⟩,
        List.replicate N "failure" ++ List.replicate (M - N) "success") ∧
    (0 < t → t < M → checkReset M N ⟨k * M + t, ls⟩ = ⟨k * M + t, ls⟩) ∧
    (0 < k → checkReset M N ⟨k * M, ls2⟩ = ⟨k * M, N⟩) := by
  obtain ⟨M', rfl⟩ : ∃ M', M = M' + 1 := ⟨M - 1, by omega⟩
  refine ⟨?_, ?_, ?_⟩
  · have hreset : checkReset (M' + 1) N ⟨k * (M' + 1), l0⟩ = ⟨k * (M' + 1), N⟩ := by
      cases k with
      | zero => simp [checkReset, hl0 rfl]
      | succ k' =>
        rw [checkReset, if_pos ⟨Nat.mul_pos (Nat.succ_pos k') hM, Nat.mul_mod_left _ _⟩]
    have hmod1 : (k * (M' + 1) + 1) % (M' + 1) = 1 % (M' + 1) := by
      rw [Nat.add_comm, Nat.add_mul_mod_self_right]
    have hyp1 : 0 < M' → (k * (M' + 1) + 1) % (M' + 1) ≠ 0 := by
      intro hM'
      rw [hmod1, Nat.mod_eq_of_lt (by omega)]
      omega
    have hyp2 : (k * (M' + 1) + 1) % (M' + 1) + M' ≤ M' + 1 := by
      rw [hmod1]
      have := Nat.mod_le 1 (M' + 1)
      omega
    cases N with
    | zero =>
      have hperf : performStatus failMsg ⟨k * (M' + 1), 0⟩ =
          (⟨k * (M' + 1) + 1, 0⟩, "success") := by
        simp [performStatus]
      have hno := runDeployments_no_reset (M' + 1) 0 failMsg hM hmsg M'
        (k * (M' + 1) + 1) 0 hyp1 hyp2
      simp only [runDeployments, deploymentStep, hreset, hperf, hno]
      simp [List.replicate_succ, Nat.succ_mul, Prod.mk.injEq, MainState.mk.injEq]
      all_goals omega
    | succ N' =>
      have hperf : performStatus failMsg ⟨k * (M' + 1), N' + 1⟩ =
          (⟨k * (M' + 1) + 1, N'⟩, "failure") := by
        simp [performStatus, hmsg]
      have hno := runDeployments_no_reset (M' + 1) (N' + 1) failMsg hM hmsg M'
        (k * (M' + 1) + 1) N' hyp1 hyp2
      have hminMN : min M' N' = N' := by omega
      simp only [runDeployments, deploymentStep, hreset, hperf, hno]
      simp [hminMN, List.replicate_succ, Nat.succ_mul, Nat.succ_sub_succ,
        Prod.mk.injEq, MainState.mk.injEq]
      all_goals omega
  · intro ht htM
    rw [checkReset, if_neg]
    intro hcond
    have hmodt : (k * (M' + 1) + t) % (M' + 1) = t % (M' + 1) := by
      rw [Nat.add_comm, Nat.add_mul_mod_self_right]
    rw [hmodt, Nat.mod_eq_of_lt htM] at hcond
    exact absurd hcond.2 (by omega)
  · intro hk
    rw [checkReset, if_pos ⟨Nat.mul_pos hk hM, Nat.mul_mod_left _ _⟩]

/-- Witness for C7 at the spec scenario fleet size 3 and fail count 1, on the
second fleet pass. -/
theorem fleet_pass_fail_then_success_witness :
    runDeployments 3 1 "failed" 3 ⟨1 * 3, 0⟩ =
      (⟨(1 + 1) * 3, 0⟩,
        List.replicate 1 "failure" ++ List.replicate (3 - 1) "success") ∧
    (0 < 1 → 1 < 3 → checkReset 3 1 ⟨1 * 3 + 1, 5⟩ = ⟨1 * 3 + 1, 5⟩) ∧
    (0 < 1 → checkReset 3 1 ⟨1 * 3, 7⟩ = ⟨1 * 3, 1⟩) :=
  fleet_pass_fail_then_success 3 1 1 1 5 7 0 "failed" (by decide) (by decide)
    (by decide) (by omega)

/-! ## Duplex-channel event dispatch (client/client.go Client.Run, websocket
select arm)

The go-lib-micro protocol constants are opaque to this repository; they are
modelled as fixed stand-in values, and only the dispatch structure over them
matters.  The msgpack serialization of a ws.Error payload is modelled by an
injective constructor. -/

def protoTypeShell : Nat := 1

def protoTypeControl : Nat := 65535

def messageTypeSpawnShell : List Char := "new".data

def messageTypeError : List Char := "error".data

def messageTypeOpen : List Char := "open".data

/-- Stand-in for the wsshell.ErrorMessage status value set in the response
properties of the spawn-shell rejection. -/
def wsShellErrorStatus : Nat := 2

/-- Body of a duplex frame: raw bytes, or the msgpack encoding of a ws.Error
payload (modelled symbolically). -/
inductive WsBody where
  | raw (s : List Char)
  | errorPayload (errMsg : List Char) (messageProto : Nat) (messageType : List Char)
      (close : Bool)
deriving Repr, DecidableEq

/-- The ws.ProtoHdr fields Client.Run reads or writes: protocol, message type,
session id, and the only property it ever sets ("status"). -/
structure ProtoHdr where
  proto : Nat
  msgType : List Char
  sessionID : List Char
  propStatus : Option Nat
deriving Repr, DecidableEq

/-- One duplex frame (ws.ProtoMsg). -/
structure ProtoMsg where
  hdr : ProtoHdr
  body : WsBody
deriving Repr, DecidableEq

/-- Embedding of the websocket arm of Client.Run's select: a spawn-shell frame
is answered on the shell protocol with an error status and an unsupported
message; every other frame is answered with a control/error frame carrying the
serialized handshake rejection. -/
def dispatchMessage (m : ProtoMsg) : ProtoMsg :=
  if m.hdr.proto = protoTypeShell ∧ m.hdr.msgType = messageTypeSpawnShell then
    ⟨⟨m.hdr.proto, m.hdr.msgType, m.hdr.sessionID, some wsShellErrorStatus⟩,
      .raw "not supported by mender-stress-test-client".data⟩
  else
    ⟨⟨protoTypeControl, messageTypeError, m.hdr.sessionID, none⟩,
      .errorPayload "handshake rejected".data protoTypeControl messageTypeOpen true⟩

/-! ## Device Session authentication and main loop (client/client.go
Client.Authenticate, Client.Run)

HTTP answers are scripted.  `Authenticate` loops internally on a non-200
status (sleeping `AuthInterval`), and returns an error on a transport failure
or an unreadable 200 body, upon which `Run` sleeps `AuthInterval` and jumps
back to the auth label; at session level every failed attempt is therefore
followed by an `AuthInterval` sleep and another attempt. -/

/-- Answer of one authentication POST: a transport error, or a response with
a status code and, for 200 responses, the result of reading the body. -/
inductive HttpAns where
  | netErr
  | resp (code : Nat) (bodyRead : Option String)
deriving Repr, DecidableEq

/-- Events of the Device Session trace. -/
inductive SEv where
  | authReq (a : HttpAns)
  | sleep (d : Nat)
  | invReq (r : CallRes)
  | updReq (r : CallRes)
  | closeWs
  | openWs
  | wsSend (m : ProtoMsg)
deriving Repr, DecidableEq

/-- Session-level authentication over a script of answers: each failing
attempt (transport error, non-200 status, unreadable 200 body) is followed by
an `AuthInterval` sleep and a retry; a 200 with readable body returns the body
as the credential.  Returns the trace and, when the script contains a success,
the credential and the unconsumed script. -/
def authLoopTrace (I : Nat) : List HttpAns → List SEv × Option (String × List HttpAns)
  | [] => ([], none)
  | a :: rs =>
    match a with
    | .netErr =>
      (SEv.authReq a :: SEv.sleep I :: (authLoopTrace I rs).1, (authLoopTrace I rs).2)
    | .resp code body =>
      if code = 200 then
        match body with
        | some b => ([SEv.authReq a], some (b, rs))
        | none =>
          (SEv.authReq a :: SEv.sleep I :: (authLoopTrace I rs).1, (authLoopTrace I rs).2)
      else
        (SEv.authReq a :: SEv.sleep I :: (authLoopTrace I rs).1, (authLoopTrace I rs).2)

/-- A failing authentication answer: transport error, non-200 status, or a
200 whose body cannot be read. -/
def isAuthFail (a : HttpAns) : Bool :=
  match a with
  | .netErr => true
  | .resp code body => if code = 200 then body.isNone else true

/-- An authentication-phase event: an auth attempt or a backoff sleep. -/
def isAuthPhaseEv (e : SEv) : Bool :=
  match e with
  | .authReq _ => true
  | .sleep _ => true
  | _ => false

theorem authLoopTrace_fail_cons (I : Nat) (a : HttpAns) (rs : List HttpAns)
    (ha : isAuthFail a = true) :
    authLoopTrace I (a :: rs) =
      (SEv.authReq a :: SEv.sleep I :: (authLoopTrace I rs).1, (authLoopTrace I rs).2) := by
  cases a with
  | netErr => rfl
  | resp code body =>
    by_cases hc : code = 200
    · cases body with
      | some b => simp [isAuthFail, hc] at ha
      | none => simp [authLoopTrace, hc]
    · simp [authLoopTrace, hc]

theorem authLoopTrace_success (I : Nat) (fails : List HttpAns) (tok : String)
    (hf : ∀ a ∈ fails, isAuthFail a = true) :
    authLoopTrace I (fails ++ [.resp 200 (some tok)]) =
      (fails.flatMap (fun a => [SEv.authReq a, SEv.sleep I]) ++
        [SEv.authReq (.resp 200 (some tok))], some (tok, [])) := by
  induction fails with
  | nil => simp [authLoopTrace]
  | cons a fails ih =>
    have ha := hf a (List.mem_cons_self a fails)
    have ih' := ih fun x hx => hf x (List.mem_cons_of_mem _ hx)
    rw [List.cons_append, authLoopTrace_fail_cons I a _ ha, ih']
    simp

/-- The number of authentication requests in a trace. -/
def countAuthReqs (t : List SEv) : Nat :=
  t.countP fun e =>
    match e with
    | SEv.authReq _ => true
    | _ => false

theorem countAuthReqs_flatMap (I : Nat) (l : List HttpAns) :
    countAuthReqs (l.flatMap fun a => [SEv.authReq a, SEv.sleep I]) = l.length := by
  induction l with
  | nil => rfl
  | cons a l ih =>
    simp only [List.flatMap_cons, countAuthReqs, List.countP_append, List.countP_cons] at ih ⊢
    simp [ih]
    omega

/-- C5: a script of n failing authentication answers followed by a success
makes the session perform exactly n + 1 authentication requests, with an
`AuthInterval` sleep after each failure (so between consecutive attempts), and
end with the credential set to the success body; this holds for every n, so
authentication never gives up. -/
theorem auth_retries_until_success (I : Nat) (fails : List HttpAns) (tok : String)
    (hf : ∀ a ∈ fails, isAuthFail a = true) :
    authLoopTrace I (fails ++ [.resp 200 (some tok)]) =
      (fails.flatMap (fun a => [SEv.authReq a, SEv.sleep I]) ++
        [SEv.authReq (.resp 200 (some tok))], some (tok, [])) ∧
    countAuthReqs (authLoopTrace I (fails ++ [.resp 200 (some tok)])).1 =
      fails.length + 1 := by
  have h := authLoopTrace_success I fails tok hf
  refine ⟨h, ?_⟩
  rw [h]
  have hc := countAuthReqs_flatMap I fails
  simp only [countAuthReqs, List.countP_append] at hc ⊢
  rw [hc]
  rfl

/-- Witness for C5 at the spec scenario: two 401 answers then a 200. -/
theorem auth_retries_until_success_witness :
    authLoopTrace 600 ([.resp 401 none, .resp 401 none] ++ [.resp 200 (some "T")]) =
      ([HttpAns.resp 401 none, HttpAns.resp 401 none].flatMap
          (fun a => [SEv.authReq a, SEv.sleep 600]) ++
        [SEv.authReq (.resp 200 (some "T"))], some ("T", [])) ∧
    countAuthReqs (authLoopTrace 600
        ([.resp 401 none, .resp 401 none] ++ [.resp 200 (some "T")])).1 =
      [HttpAns.resp 401 none, HttpAns.resp 401 none].length + 1 :=
  auth_retries_until_success 600 [.resp 401 none, .resp 401 none] "T" (by decide)

/-- What the single select point of Client.Run reacts to next: the inventory
ticker, the update ticker, or an inbound duplex frame. -/
inductive TickIn where
  | invTick
  | updTick
  | wsMsg (m : ProtoMsg)
deriving Repr, DecidableEq

/-- Control position inside Client.Run: at the auth label, at the immediate
post-authentication inventory/update calls, or in the select loop. -/
inductive RunMode where
  | start
  | afterA
  | loop
deriving Repr, DecidableEq

/-- Embedding of Client.Run, fuel-bounded.  `auths` answers the auth attempts,
`calls` answers the inventory/update calls in program order, `ticks` drives
the select loop.  At the auth label the session authenticates (retrying per
`authLoopTrace`), then starts the websocket reader when enabled, then performs
one immediate inventory send and one immediate update check — a 401 on either
jumps straight back to the auth label (without touching the websocket) — and
then enters the select loop, where a 401 on a ticker-driven call closes the
websocket (when enabled) before jumping back to the auth label, and any other
error leaves the schedule unchanged.  An inbound duplex frame is answered with
`dispatchMessage`.  The trace is cut short when the fuel, a script, or the
tick list runs out. -/
def runC (ws : Bool) (I : Nat) :
    Nat → RunMode → List HttpAns → List CallRes → List TickIn → List SEv
  | 0, _, _, _, _ => []
  | fuel + 1, .start, auths, calls, ticks =>
    (authLoopTrace I auths).1 ++
      (match (authLoopTrace I auths).2 with
      | none => []
      | some (_, auths') =>
        (if ws then [SEv.openWs] else []) ++ runC ws I fuel .afterA auths' calls ticks)
  | fuel + 1, .afterA, auths, calls, ticks =>
    (match calls with
    | [] => []
    | r :: calls' =>
      SEv.invReq r ::
        (match r with
        | .unauthorized => runC ws I fuel .start auths calls' ticks
        | _ =>
          (match calls' with
          | [] => []
          | r2 :: calls'' =>
            SEv.updReq r2 ::
              (match r2 with
              | .unauthorized => runC ws I fuel .start auths calls'' ticks
              | _ => runC ws I fuel .loop auths calls'' ticks))))
  | fuel + 1, .loop, auths, calls, ticks =>
    (match ticks with
    | [] => []
    | .wsMsg m :: ticks' =>
      (if ws then [SEv.wsSend (dispatchMessage m)] else []) ++
        runC ws I fuel .loop auths calls ticks'
    | .invTick :: ticks' =>
      (match calls with
      | [] => []
      | r :: calls' =>
        SEv.invReq r ::
          (match r with
          | .unauthorized =>
            (if ws then [SEv.closeWs] else []) ++ runC ws I fuel .start auths calls' ticks'
          | _ => runC ws I fuel .loop auths calls' ticks'))
    | .updTick :: ticks' =>
      (match calls with
      | [] => []
      | r :: calls' =>
        SEv.updReq r ::
          (match r with
          | .unauthorized =>
            (if ws then [SEv.closeWs] else []) ++ runC ws I fuel .start auths calls' ticks'
          | _ => runC ws I fuel .loop auths calls' ticks')))

theorem authLoopTrace_events (I : Nat) :
    ∀ auths : List HttpAns, ∀ e ∈ (authLoopTrace I auths).1, isAuthPhaseEv e = true := by
  intro auths
  induction auths with
  | nil => intro e he; simp [authLoopTrace] at he
  | cons a rs ih =>
    intro e he
    cases a with
    | netErr =>
      simp only [authLoopTrace, List.mem_cons] at he
      rcases he with rfl | rfl | h
      · rfl
      · rfl
      · exact ih e h
    | resp code body =>
      by_cases hc : code = 200
      · cases body with
        | some b =>
          simp only [authLoopTrace, hc, if_true, List.mem_singleton] at he
          subst he; rfl
        | none =>
          simp only [authLoopTrace, hc, if_true, List.mem_cons] at he
          rcases he with rfl | rfl | h
          · rfl
          · rfl
          · exact ih e h
      · simp only [authLoopTrace, if_neg hc, List.mem_cons] at he
        rcases he with rfl | rfl | h
        · rfl
        · rfl
        · exact ih e h

theorem runC_loop_invTick_unauth (ws : Bool) (I fuel : Nat) (auths : List HttpAns)
    (calls : List CallRes) (ticks : List TickIn) :
    runC ws I (fuel + 1) .loop auths (.unauthorized :: calls) (.invTick :: ticks) =
      SEv.invReq .unauthorized ::
        ((if ws then [SEv.closeWs] else []) ++ runC ws I fuel .start auths calls ticks) :=
  rfl

theorem runC_start_step (ws : Bool) (I fuel : Nat) (auths : List HttpAns)
    (calls : List CallRes) (ticks : List TickIn) (t : List SEv) (tok : String)
    (rest : List HttpAns) (hauth : authLoopTrace I auths = (t, some (tok, rest))) :
    runC ws I (fuel + 1) .start auths calls ticks =
      t ++ ((if ws then [SEv.openWs] else []) ++ runC ws I fuel .afterA rest calls ticks) := by
  show (authLoopTrace I auths).1 ++ _ = _
  rw [hauth]

theorem runC_loop_updTick_unauth (ws : Bool) (I fuel : Nat) (auths : List HttpAns)
    (calls : List CallRes) (ticks : List TickIn) :
    runC ws I (fuel + 1) .loop auths (.unauthorized :: calls) (.updTick :: ticks) =
      SEv.updReq .unauthorized ::
        ((if ws then [SEv.closeWs] else []) ++ runC ws I fuel .start auths calls ticks) :=
  rfl

theorem runC_afterA_ok_ok (ws : Bool) (I fuel : Nat) (auths : List HttpAns)
    (calls : List CallRes) (ticks : List TickIn) :
    runC ws I (fuel + 1) .afterA auths (.ok :: .ok :: calls) ticks =
      SEv.invReq .ok :: SEv.updReq .ok :: runC ws I fuel .loop auths calls ticks :=
  rfl

/-- C2 (amended): a 401 on a ticker-driven inventory call, and equally a 401
on a ticker-driven update check, makes the session close the duplex channel
(enabled here), re-run authentication — emitting only authentication attempts
and backoff sleeps until it succeeds — and then resume with the websocket
reopened, the immediate inventory send and update check, and the select loop;
the 401 does not terminate the session. -/
theorem reauth_on_ticker_unauthorized (I fuel : Nat) (auths rest : List HttpAns)
    (t : List SEv) (tok : String) (calls : List CallRes) (ticks : List TickIn)
    (hauth : authLoopTrace I auths = (t, some (tok, rest))) :
    runC true I (fuel + 1 + 1 + 1) .loop auths (.unauthorized :: .ok :: .ok :: calls)
        (.invTick :: ticks) =
      SEv.invReq .unauthorized :: SEv.closeWs ::
        (t ++ SEv.openWs :: SEv.invReq .ok :: SEv.updReq .ok ::
          runC true I fuel .loop rest calls ticks) ∧
    runC true I (fuel + 1 + 1 + 1) .loop auths (.unauthorized :: .ok :: .ok :: calls)
        (.updTick :: ticks) =
      SEv.updReq .unauthorized :: SEv.closeWs ::
        (t ++ SEv.openWs :: SEv.invReq .ok :: SEv.updReq .ok ::
          runC true I fuel .loop rest calls ticks) ∧
    (∀ e ∈ t, isAuthPhaseEv e = true) := by
  refine ⟨?_, ?_, ?_⟩
  · rw [runC_loop_invTick_unauth, runC_start_step true I (fuel + 1) auths _ _ t tok rest hauth,
      runC_afterA_ok_ok]
    simp
  · rw [runC_loop_updTick_unauth, runC_start_step true I (fuel + 1) auths _ _ t tok rest hauth,
      runC_afterA_ok_ok]
    simp
  · intro e he
    exact authLoopTrace_events I auths e (by simp [hauth]; exact he)

/-- Witness for the amended C2: one transport-failed auth attempt, then
success, around a ticker-driven inventory 401 and a ticker-driven update 401. -/
theorem reauth_on_ticker_unauthorized_witness :
    runC true 5 (0 + 1 + 1 + 1) .loop [.netErr, .resp 200 (some "T")]
        (.unauthorized :: .ok :: .ok :: []) (.invTick :: []) =
      SEv.invReq .unauthorized :: SEv.closeWs ::
        ([SEv.authReq .netErr, SEv.sleep 5, SEv.authReq (.resp 200 (some "T"))] ++
          SEv.openWs :: SEv.invReq .ok :: SEv.updReq .ok ::
            runC true 5 0 .loop [] [] []) ∧
    runC true 5 (0 + 1 + 1 + 1) .loop [.netErr, .resp 200 (some "T")]
        (.unauthorized :: .ok :: .ok :: []) (.updTick :: []) =
      SEv.updReq .unauthorized :: SEv.closeWs ::
        ([SEv.authReq .netErr, SEv.sleep 5, SEv.authReq (.resp 200 (some "T"))] ++
          SEv.openWs :: SEv.invReq .ok :: SEv.updReq .ok ::
            runC true 5 0 .loop [] [] []) ∧
    (∀ e ∈ [SEv.authReq HttpAns.netErr, SEv.sleep 5,
        SEv.authReq (HttpAns.resp 200 (some "T"))], isAuthPhaseEv e = true) :=
  reauth_on_ticker_unauthorized 5 0 [.netErr, .resp 200 (some "T")] []
    [SEv.authReq .netErr, SEv.sleep 5, SEv.authReq (.resp 200 (some "T"))] "T" [] []
    (by decide)

/-- C2 counterexample: with the duplex feature enabled, a 401 on the immediate
post-authentication inventory call jumps back to authentication without closing
the duplex channel — the trace contains an unauthorized inventory call and a
re-authentication but no close event, contradicting the claim that every 401
on an authenticated call closes the channel. -/
theorem startup_unauthorized_no_close_counterexample :
    runC true 5 3 .start [.resp 200 (some "t1"), .resp 200 (some "t2")]
        [.unauthorized, .ok, .ok] [] =
      [SEv.authReq (.resp 200 (some "t1")), SEv.openWs, SEv.invReq .unauthorized,
        SEv.authReq (.resp 200 (some "t2")), SEv.openWs] ∧
    SEv.closeWs ∉
      runC true 5 3 .start [.resp 200 (some "t1"), .resp 200 (some "t2")]
        [.unauthorized, .ok, .ok] [] := by
  decide

/-- C9: every inbound duplex frame delivered to the session's dispatch gets an
explicit response written back: a spawn-shell frame gets the shell-protocol
unsupported-operation error response (echoing its session id), any other frame
gets the control/error rejection frame carrying the serialized handshake
rejection; in the session loop each delivered frame emits exactly one response
write and the loop continues. -/
theorem ws_frame_always_answered (m m2 : ProtoMsg) (I fuel : Nat)
    (auths : List HttpAns) (calls : List CallRes) (ticks : List TickIn)
    (hspawn : m.hdr.proto = protoTypeShell ∧ m.hdr.msgType = messageTypeSpawnShell)
    (hother : ¬(m2.hdr.proto = protoTypeShell ∧ m2.hdr.msgType = messageTypeSpawnShell)) :
    dispatchMessage m =
      ⟨⟨m.hdr.proto, m.hdr.msgType, m.hdr.sessionID, some wsShellErrorStatus⟩,
        .raw "not supported by mender-stress-test-client".data⟩ ∧
    dispatchMessage m2 =
      ⟨⟨protoTypeControl, messageTypeError, m2.hdr.sessionID, none⟩,
        .errorPayload "handshake rejected".data protoTypeControl messageTypeOpen true⟩ ∧
    runC true I (fuel + 1) .loop auths calls (.wsMsg m :: ticks) =
      SEv.wsSend (dispatchMessage m) :: runC true I fuel .loop auths calls ticks ∧
    runC true I (fuel + 1) .loop auths calls (.wsMsg m2 :: ticks) =
      SEv.wsSend (dispatchMessage m2) :: runC true I fuel .loop auths calls ticks := by
  refine ⟨?_, ?_, rfl, rfl⟩
  · rw [dispatchMessage, if_pos hspawn]
  · rw [dispatchMessage, if_neg hother]

/-- Witness for C9 with a concrete spawn-shell frame and a concrete open
frame. -/
theorem ws_frame_always_answered_witness :
    dispatchMessage ⟨⟨1, "new".data, "s".data, none⟩, .raw []⟩ =
      ⟨⟨(⟨⟨1, "new".data, "s".data, none⟩, WsBody.raw []⟩ : ProtoMsg).hdr.proto,
        (⟨⟨1, "new".data, "s".data, none⟩, WsBody.raw []⟩ : ProtoMsg).hdr.msgType,
        (⟨⟨1, "new".data, "s".data, none⟩, WsBody.raw []⟩ : ProtoMsg).hdr.sessionID,
        some wsShellErrorStatus⟩,
        .raw "not supported by mender-stress-test-client".data⟩ ∧
    dispatchMessage ⟨⟨65535, "open".data, "u".data, none⟩, .raw []⟩ =
      ⟨⟨protoTypeControl, messageTypeError,
        (⟨⟨65535, "open".data, "u".data, none⟩, WsBody.raw []⟩ : ProtoMsg).hdr.sessionID,
        none⟩,
        .errorPayload "handshake rejected".data protoTypeControl messageTypeOpen true⟩ ∧
    runC true 5 (0 + 1) .loop [] [] [.wsMsg ⟨⟨1, "new".data, "s".data, none⟩, .raw []⟩] =
      SEv.wsSend (dispatchMessage ⟨⟨1, "new".data, "s".data, none⟩, .raw []⟩) ::
        runC true 5 0 .loop [] [] [] ∧
    runC true 5 (0 + 1) .loop [] [] [.wsMsg ⟨⟨65535, "open".data, "u".data, none⟩, .raw []⟩] =
      SEv.wsSend (dispatchMessage ⟨⟨65535, "open".data, "u".data, none⟩, .raw []⟩) ::
        runC true 5 0 .loop [] [] [] :=
  ws_frame_always_answered ⟨⟨1, "new".data, "s".data, none⟩, .raw []⟩
    ⟨⟨65535, "open".data, "u".data, none⟩, .raw []⟩ 5 0 [] [] []
    (by decide) (by decide)

/-! ## Update check (client/client.go Client.UpdateCheck) -/

/-- The fields of model.DeploymentNextResponse that UpdateCheck reads: the
deployment id and the optional artifact name. -/
structure DeploymentNextResponse where
  id : List Char
  artifact : Option (List Char)
deriving Repr, DecidableEq

/-- Answer of the deployments/next POST: a transport error, or a response with
a status code and — read only on a 200 — the parse result of the body. -/
inductive UpdAns where
  | netErr
  | resp (code : Nat) (parsed : Option DeploymentNextResponse)
deriving Repr, DecidableEq

/-- How UpdateCheck returns, as Client.Run distinguishes it. -/
inductive SessionOutcome where
  | ok
  | unauthorized
  | err
  | stuck
deriving Repr, DecidableEq

/-- Embedding of Client.UpdateCheck: a 401 surfaces the rejection; a 200 runs
the deployment (Client.Deployment) for the received id, and when that
completes updates the remembered artifact name to the payload's artifact name
(when one is present) and immediately re-sends inventory built with the
updated name; any other status is a no-op.  Returns the trace, the remembered
artifact name afterwards, and the outcome. -/
def updateCheck (T : Nat) (artifactName deviceType : List Char)
    (staticAttrs randomAttrs : List (List Char)) (index : Nat) (choices : List Nat)
    (ans : UpdAns) (depOracle : List DepResult) (invAns : CallRes) :
    List DepEv × List Char × SessionOutcome :=
  match ans with
  | .netErr => ([], artifactName, .err)
  | .resp code parsed =>
    if code = 401 then ([], artifactName, .unauthorized)
    else if code = 200 then
      match parsed with
      | none => ([], artifactName, .err)
      | some d =>
        match (clientDeployment T depOracle).2 with
        | .success =>
          ((clientDeployment T depOracle).1 ++
            [DepEv.invSent
              (buildAttributes (d.artifact.getD artifactName) deviceType staticAttrs
                randomAttrs index choices) invAns],
            d.artifact.getD artifactName,
            match invAns with
            | .unauthorized => SessionOutcome.unauthorized
            | .err => .err
            | .ok => .ok)
        | .transportErr => ((clientDeployment T depOracle).1, artifactName, .err)
        | .unauthorized => ((clientDeployment T depOracle).1, artifactName, .unauthorized)
        | .stuck => ((clientDeployment T depOracle).1, artifactName, .stuck)
    else ([], artifactName, .ok)

theorem clientDeployment_all_ok (T c1 c2 c3 c4 : Nat)
    (h1 : c1 ≠ 401) (h2 : c2 ≠ 401) (h3 : c3 ≠ 401) (h4 : c4 ≠ 401) :
    clientDeployment T [.resp c1, .resp c2, .resp c3, .resp c4] =
      ([.depReport statusDownloading (.resp c1), .depSleep T,
        .depReport statusInstalling (.resp c2), .depSleep T,
        .depReport statusRebooting (.resp c3), .depSleep T,
        .depReport statusSuccess (.resp c4), .depSleep T], .success) := by
  simp [clientDeployment, deploymentStatuses, deploymentRun, h1, h2, h3, h4]

/-- C6: when the update check returns a deployment naming a target artifact,
then after the deployment's terminal phase report the remembered artifact name
equals the target name and an inventory report is submitted immediately (the
very next trace event after the deployment) whose first attribute is
rootfs-image.version with the new name; a payload naming no artifact leaves
the remembered name unchanged. -/
theorem update_check_artifact_and_inventory (T : Nat)
    (artifactName deviceType : List Char) (staticAttrs randomAttrs : List (List Char))
    (index : Nat) (choices : List Nat) (id1 id2 newName : List Char)
    (c1 c2 c3 c4 : Nat) (invAns : CallRes)
    (h1 : c1 ≠ 401) (h2 : c2 ≠ 401) (h3 : c3 ≠ 401) (h4 : c4 ≠ 401) :
    (updateCheck T artifactName deviceType staticAttrs randomAttrs index choices
        (.resp 200 (some ⟨id1, some newName⟩))
        [.resp c1, .resp c2, .resp c3, .resp c4] invAns).1 =
      [.depReport statusDownloading (.resp c1), .depSleep T,
        .depReport statusInstalling (.resp c2), .depSleep T,
        .depReport statusRebooting (.resp c3), .depSleep T,
        .depReport statusSuccess (.resp c4), .depSleep T,
        .invSent (buildAttributes newName deviceType staticAttrs randomAttrs index choices)
          invAns] ∧
    (updateCheck T artifactName deviceType staticAttrs randomAttrs index choices
        (.resp 200 (some ⟨id1, some newName⟩))
        [.resp c1, .resp c2, .resp c3, .resp c4] invAns).2.1 = newName ∧
    (buildAttributes newName deviceType staticAttrs randomAttrs index choices).head? =
      some ⟨attributeRootfsImageVersion, newName⟩ ∧
    (updateCheck T artifactName deviceType staticAttrs randomAttrs index choices
        (.resp 200 (some ⟨id2, none⟩))
        [.resp c1, .resp c2, .resp c3, .resp c4] invAns).2.1 = artifactName := by
  have hdep := clientDeployment_all_ok T c1 c2 c3 c4 h1 h2 h3 h4
  refine ⟨?_, ?_, rfl, ?_⟩ <;> simp [updateCheck, hdep]

/-- Witness for C6 at the spec scenario: target artifact "v2", four 204 phase
responses. -/
theorem update_check_artifact_and_inventory_witness :
    (updateCheck 1 "old".data "test".data [] [] 0 []
        (.resp 200 (some ⟨"d1".data, some "v2".data⟩))
        [.resp 204, .resp 204, .resp 204, .resp 204] .ok).1 =
      [.depReport statusDownloading (.resp 204), .depSleep 1,
        .depReport statusInstalling (.resp 204), .depSleep 1,
        .depReport statusRebooting (.resp 204), .depSleep 1,
        .depReport statusSuccess (.resp 204), .depSleep 1,
        .invSent (buildAttributes "v2".data "test".data [] [] 0 []) .ok] ∧
    (updateCheck 1 "old".data "test".data [] [] 0 []
        (.resp 200 (some ⟨"d1".data, some "v2".data⟩))
        [.resp 204, .resp 204, .resp 204, .resp 204] .ok).2.1 = "v2".data ∧
    (buildAttributes "v2".data "test".data [] [] 0 []).head? =
      some ⟨attributeRootfsImageVersion, "v2".data⟩ ∧
    (updateCheck 1 "old".data "test".data [] [] 0 []
        (.resp 200 (some ⟨"d2".data, none⟩))
        [.resp 204, .resp 204, .resp 204, .resp 204] .ok).2.1 = "old".data :=
  update_check_artifact_and_inventory 1 "old".data "test".data [] [] 0 []
    "d1".data "d2".data "v2".data 204 204 204 204 .ok
    (by decide) (by decide) (by decide) (by decide)

end MSTC
